import Mathlib

/-!
Verification of the tableau-tour repository (src/src/App.jsx, src/src/Configure.jsx).

JavaScript numbers that can become `NaN` (or arise from `undefined` entering
arithmetic) are modelled as `Option ℚ`, with `none` standing for NaN/undefined;
every arithmetic operation propagates `none`, exactly as NaN propagates in JS.
Step indices, which are produced by `%` on integers (and become NaN on `% 0`),
are modelled as `Option ℤ` with JS truncated remainder (`Int.tmod`).
-/

namespace TableauTour

/-- A JavaScript numeric value used in layout arithmetic: `none` is NaN
(or an `undefined` field that enters arithmetic and becomes NaN). -/
abbrev JsQ := Option ℚ

/-- JS addition: NaN propagates. -/
def jadd : JsQ → JsQ → JsQ
  | some a, some b => some (a + b)
  | _, _ => none

/-- JS subtraction: NaN propagates. -/
def jsub : JsQ → JsQ → JsQ
  | some a, some b => some (a - b)
  | _, _ => none

/-- `Math.max`: returns NaN when either argument is NaN. -/
def jmax : JsQ → JsQ → JsQ
  | some a, some b => some (max a b)
  | _, _ => none

/-- A JS integer value (a step index): `none` is NaN. -/
abbrev JsZ := Option ℤ

/-- JS integer addition: NaN propagates. -/
def jaddZ : JsZ → JsZ → JsZ
  | some a, some b => some (a + b)
  | _, _ => none

/-- JS `%` on integers: truncated remainder; `x % 0` is NaN, NaN propagates. -/
def jmodZ : JsZ → JsZ → JsZ
  | some a, some b => if b = 0 then none else some (a.tmod b)
  | _, _ => none

/-- `extensionPosition` (the container): x/y/width/height of the Tableau Tour
extension object.  All four fields are plain numbers when present. -/
structure RectQ where
  x : ℚ
  y : ℚ
  width : ℚ
  height : ℚ
  deriving DecidableEq, Repr

/-- Details of a resolved dashboard object (`objectDetailsMap[objectId]` in
`refreshTourItems`); the `name` field is never used by the layout code and is
omitted. -/
structure ObjDetails where
  x : ℚ
  y : ℚ
  width : ℚ
  height : ℚ
  deriving DecidableEq, Repr

/-- A CSS dimension stored in a mask rectangle: the source writes the string
`"100%"` for the top/bottom mask widths and a number for everything else. -/
inductive CssDim where
  | pct100 : CssDim
  | px (v : JsQ) : CssDim
  deriving DecidableEq, Repr

/-- The pixel width a `CssDim` resolves to when rendered inside a container of
the given pixel width (`"100%"` of the container is the container's width). -/
def CssDim.renderedPx (containerPx : ℚ) : CssDim → JsQ
  | .pct100 => some containerPx
  | .px v => v

/-- The numeric value of a `CssDim` written as a number in the source. -/
def CssDim.pxVal : CssDim → JsQ
  | .pct100 => none
  | .px v => v

/-- One grey overlay box (`positions.top/left/right/bottom` in
`updateBoxPositions`). -/
structure MaskRect where
  top : JsQ
  left : JsQ
  width : CssDim
  height : JsQ
  deriving DecidableEq, Repr

/-- The `positions` object computed by `updateBoxPositions`. -/
structure MaskPositions where
  top : MaskRect
  left : MaskRect
  right : MaskRect
  bottom : MaskRect
  deriving DecidableEq, Repr

/-- The `textBoxPosition` object: fixed numeric width (300), height `"auto"`
(intrinsic, not computed), and top/left coordinates. -/
structure TextBoxPos where
  width : ℚ
  top : JsQ
  left : JsQ
  deriving DecidableEq, Repr

/-- `const verticalOverlap = 0.1` in `updateBoxPositions`. -/
def verticalOverlap : ℚ := 1 / 10

/-- `const maxTextBoxWidth = 300`. -/
def maxTextBoxWidth : ℚ := 300

/-- `const textPadding = 10`. -/
def textPadding : ℚ := 10

/-- `x` field of an item's `details`, as the JS value entering arithmetic
(`undefined`, hence NaN, when the details object is the `{}` fallback). -/
def detX (d : Option ObjDetails) : JsQ := d.map ObjDetails.x

/-- `y` field of an item's `details` (NaN when details is `{}`). -/
def detY (d : Option ObjDetails) : JsQ := d.map ObjDetails.y

/-- `width` field of an item's `details` (NaN when details is `{}`). -/
def detW (d : Option ObjDetails) : JsQ := d.map ObjDetails.width

/-- `height` field of an item's `details` (NaN when details is `{}`). -/
def detH (d : Option ObjDetails) : JsQ := d.map ObjDetails.height

/-- The `positions` object of `updateBoxPositions` (App.jsx lines 218-243):
grey overlay boxes around the target computed from the target's details and
the extension (container) position.  `adjustedX/adjustedY` translate the
target into container-local coordinates. -/
def maskPositionsOf (ext : RectQ) (d : Option ObjDetails) : MaskPositions :=
  let adjustedX := jsub (detX d) (some ext.x)
  let adjustedY := jsub (detY d) (some ext.y)
  { top :=
      { top := some 0
        left := some 0
        width := .pct100
        height := adjustedY }
    left :=
      { top := adjustedY
        left := some 0
        width := .px adjustedX
        height := jadd (detH d) (some verticalOverlap) }
    right :=
      { top := adjustedY
        left := jadd adjustedX (detW d)
        width := .px (jsub (some ext.width) (jadd adjustedX (detW d)))
        height := jadd (detH d) (some verticalOverlap) }
    bottom :=
      { top := jadd adjustedY (detH d)
        left := some 0
        width := .pct100
        height := jsub (some ext.height) (jadd adjustedY (detH d)) } }

/-- The `textBoxPosition` of `updateBoxPositions` (App.jsx lines 253-284):
the tooltip box placed per the step's `position` string; the `switch`
statement's `default` case covers `"bottom"` and any other string. -/
def textBoxOf (ext : RectQ) (d : Option ObjDetails) (position : String) :
    TextBoxPos :=
  let adjustedX := jsub (detX d) (some ext.x)
  let adjustedY := jsub (detY d) (some ext.y)
  if position = "right" then
    { width := maxTextBoxWidth
      top := adjustedY
      left := jadd (jadd adjustedX (detW d)) (some textPadding) }
  else if position = "left" then
    { width := maxTextBoxWidth
      top := adjustedY
      left := jmax
        (jsub (jsub adjustedX (some maxTextBoxWidth)) (some (textPadding * 3)))
        (some 0) }
  else if position = "top" then
    { width := maxTextBoxWidth
      top := jmax (jsub (detH d) (some (textPadding * 3))) (some 0)
      left := adjustedX }
  else
    { width := maxTextBoxWidth
      top := jadd (jadd adjustedY (detH d)) (some textPadding)
      left := adjustedX }

/-- One entry of the `tourItems` array built by `refreshTourItems`:
`details` is `objectDetailsMap[objectId] || {}`, so `none` models the `{}`
fallback when the object id is unknown; note that `{}` is truthy in JS, so a
`TourItem` always passes the `item?.details` truthiness check. -/
structure TourItem where
  objectId : String
  text : String
  position : String
  details : Option ObjDetails
  deriving DecidableEq, Repr

/-- The React state of the `App` component that the tour player reads and
writes: `boxPositions` is `none` for the initial `{}` (no grey boxes
rendered), `textPosition` is `none` for the initial `null`. -/
structure PlayerState where
  tourItems : List TourItem
  currentStep : JsZ
  boxPositions : Option MaskPositions
  textPosition : Option TextBoxPos
  textVisible : Bool
  deriving DecidableEq, Repr

/-- JS array indexing `items[i]`: `undefined` (`none`) for NaN or any index
outside `[0, items.length)`. -/
def jsIndex (items : List TourItem) : JsZ → Option TourItem
  | none => none
  | some z =>
      if h : 0 ≤ z ∧ z.toNat < items.length then some (items.get ⟨z.toNat, h.2⟩)
      else none

/-- `updateBoxPositions(stepIndex, items)` (App.jsx lines 203-292): when the
indexed item exists (its `details` is always truthy, see `TourItem`) and the
extension position is known, it stores the mask positions and tooltip box and
shows the tooltip; otherwise it changes nothing. -/
def updateBoxPositions (ext : Option RectQ) (stepIndex : JsZ)
    (s : PlayerState) : PlayerState :=
  match jsIndex s.tourItems stepIndex, ext with
  | some item, some e =>
      { s with
        boxPositions := some (maskPositionsOf e item.details)
        textPosition := some (textBoxOf e item.details item.position)
        textVisible := true }
  | _, _ => s

/-- `handleNext` (App.jsx lines 298-307): `(currentStep + 1) % tourItems.length`
(NaN when the list is empty), hide the tooltip, set the step, recompute
positions. -/
def handleNext (ext : Option RectQ) (s : PlayerState) : PlayerState :=
  let nextStep := jmodZ (jaddZ s.currentStep (some 1))
    (some (s.tourItems.length : ℤ))
  updateBoxPositions ext nextStep
    { s with textVisible := false, currentStep := nextStep }

/-- `handlePrevious` (App.jsx lines 313-322):
`(currentStep - 1 + tourItems.length) % tourItems.length`. -/
def handlePrevious (ext : Option RectQ) (s : PlayerState) : PlayerState :=
  let prevStep := jmodZ
    (jaddZ (jaddZ s.currentStep (some (-1))) (some (s.tourItems.length : ℤ)))
    (some (s.tourItems.length : ℤ))
  updateBoxPositions ext prevStep
    { s with textVisible := false, currentStep := prevStep }

/-- Clicking the step-indicator circle for index `k` (App.jsx lines 417-435);
a circle exists only for `k < tourItems.length`, so the handler is modelled
as a no-op outside that range (such a call cannot be made from the UI). -/
def jumpTo (ext : Option RectQ) (k : ℕ) (s : PlayerState) : PlayerState :=
  if k < s.tourItems.length then
    updateBoxPositions ext (some (k : ℤ))
      { s with textVisible := false, currentStep := some (k : ℤ) }
  else s

/-- The `App` component's initial state (the `useState` initialisers). -/
def initState : PlayerState :=
  { tourItems := []
    currentStep := some 0
    boxPositions := none
    textPosition := none
    textVisible := false }

/-- Loading a tour sequence: `refreshTourItems` sets the items and resets
`currentStep` to 0 (App.jsx lines 193-194), and the effect on
`[tourItems, extensionPosition]` (lines 101-108) then calls
`updateBoxPositions(0, tourItems)` when the list is non-empty and the
extension position is known. -/
def loadItems (ext : Option RectQ) (items : List TourItem)
    (s : PlayerState) : PlayerState :=
  let s' := { s with tourItems := items, currentStep := some 0 }
  if 0 < items.length ∧ ext.isSome then updateBoxPositions ext (some 0) s'
  else s'

/-- A navigation action available from the player UI. -/
inductive Action where
  | next : Action
  | previous : Action
  | jump (k : ℕ) : Action
  deriving DecidableEq, Repr

/-- Apply one navigation action. -/
def applyAction (ext : Option RectQ) (s : PlayerState) : Action → PlayerState
  | .next => handleNext ext s
  | .previous => handlePrevious ext s
  | .jump k => jumpTo ext k s

/-- Apply a finite sequence of navigation actions. -/
def applyActions (ext : Option RectQ) (s : PlayerState)
    (acts : List Action) : PlayerState :=
  acts.foldl (applyAction ext) s

/-- The render condition of the tooltip box (App.jsx line 451):
`tourItems[currentStep] && textPosition && textVisible`. -/
def textBoxRendered (s : PlayerState) : Bool :=
  (jsIndex s.tourItems s.currentStep).isSome && s.textPosition.isSome &&
    s.textVisible

/-- Nothing of the overlay renders: no grey boxes (`boxPositions` is the
initial `{}`, over whose keys the render maps) and the tooltip box's render
condition is false. -/
def rendersNothing (s : PlayerState) : Prop :=
  s.boxPositions = none ∧ textBoxRendered s = false

/-- The index invariant of the player on a non-empty item list. -/
def IdxInv (items : List TourItem) (s : PlayerState) : Prop :=
  s.tourItems = items ∧
    ∃ p : ℕ, s.currentStep = some (p : ℤ) ∧ p < items.length

/-- The invariant holding after an empty sequence is loaded on a fresh mount. -/
def EmptyInv (s : PlayerState) : Prop :=
  s.tourItems = [] ∧ s.boxPositions = none ∧ s.textPosition = none ∧
    s.textVisible = false

/-- A sample container position used for concrete evaluations. -/
def extC : Option RectQ := some ⟨0, 0, 800, 600⟩

/-- A tour item whose `targetId` resolves to a known dashboard object. -/
def sampleItem : TourItem :=
  { objectId := "obj1", text := "step one", position := "right",
    details := some ⟨100, 100, 200, 50⟩ }

/-- A tour item whose `targetId` resolves to no dashboard object, so its
`details` is the `{}` fallback. -/
def ghostItem : TourItem :=
  { objectId := "ghost", text := "missing target", position := "right",
    details := none }

/-- The player state after loading an empty tour sequence on a fresh mount. -/
def emptyLoaded : PlayerState := loadItems extC [] initState

/-- A fresh-mount state holding the single unresolvable tour item. -/
def ghostState : PlayerState := { initState with tourItems := [ghostItem] }

/-- One row of the configuration dialog (Configure.jsx): the synthetic `id`
is used for React keys and for delete/update addressing. -/
structure Row where
  id : ℕ
  object : String
  text : String
  position : String
  deriving DecidableEq, Repr

/-- The destructuring swap of two adjacent array slots used by
`handleMoveUp`/`handleMoveDown`
(`[a[i], a[i+1]] = [a[i+1], a[i]]` on a copy); when either slot does not
exist the UI never performs the swap, so the list is returned unchanged. -/
def swapAdj {α : Type} (l : List α) (i : ℕ) : List α :=
  match l[i]?, l[i + 1]? with
  | some a, some b => (l.set i b).set (i + 1) a
  | _, _ => l

/-- `handleMoveUp(index)` (Configure.jsx lines 158-164): no-op at index 0,
otherwise swap the row with the one above it.  The index comes from the
rendered row list, so it is always in `[0, rows.length)`; a negative index
cannot be produced by the UI and is modelled as a no-op. -/
def handleMoveUp {α : Type} (l : List α) (index : ℤ) : List α :=
  if index = 0 then l
  else if 0 < index then swapAdj l (index.toNat - 1)
  else l

/-- `handleMoveDown(index)` (Configure.jsx lines 170-176): no-op at the last
index (`rows.length - 1`, an integer, so `-1` for the empty list), otherwise
swap the row with the one below it. -/
def handleMoveDown {α : Type} (l : List α) (index : ℤ) : List α :=
  if index = (l.length : ℤ) - 1 then l
  else if 0 ≤ index then swapAdj l index.toNat
  else l

/-- `handleAddRow` (Configure.jsx lines 139-144): appends a fresh row whose
synthetic id is the current length of the list. -/
def handleAddRow (rows : List Row) : List Row :=
  rows ++ [{ id := rows.length, object := "", text := "", position := "right" }]

/-- `handleDeleteRow(id)` (Configure.jsx lines 150-152): keeps every row
whose id differs from the given one. -/
def handleDeleteRow (rows : List Row) (i : ℕ) : List Row :=
  rows.filter fun r => r.id != i

/-- A concrete two-row configuration used as a witness input. -/
def sampleRows : List Row :=
  [{ id := 0, object := "a", text := "t1", position := "right" },
   { id := 1, object := "b", text := "t2", position := "left" }]

/-- A concrete three-row configuration used by the round-trip witness. -/
def threeRows : List Row :=
  [{ id := 0, object := "o1", text := "first", position := "right" },
   { id := 1, object := "o2", text := "second", position := "left" },
   { id := 2, object := "o3", text := "third", position := "top" }]

/-- The flat key-value settings store of the host
(`tableau.extensions.settings`); `none` is an unset key. -/
def Settings := String → Option String

/-- `settings.set(key, value)`. -/
def setS (key v : String) (m : Settings) : Settings :=
  fun q => if q = key then some v else m q

/-- The store after every key has been erased (`handleSave` erases all
existing keys before writing). -/
def emptySettings : Settings := fun _ => none

/-- JS `v || d` applied to a looked-up setting: the stored string unless the
key is unset (`undefined`) or the stored string is empty (falsy), in which
case the default. -/
def jsOr (v : Option String) (d : String) : String :=
  match v with
  | some s => if s = "" then d else s
  | none => d

/-- The character of a decimal digit (`'0'` has code 48). -/
def digitChar (d : ℕ) : Char := Char.ofNat (48 + d)

/-- The decimal value of a digit character. -/
def charDigit (c : Char) : ℕ := c.toNat - 48

/-- Whether a character is a decimal digit. -/
def isDigitCh (c : Char) : Bool :=
  decide (48 ≤ c.toNat) && decide (c.toNat ≤ 57)

/-- The decimal digit list of `n`, most significant first (`[0]` for 0),
as produced by JS `Number.prototype.toString`. -/
def decDigits (n : ℕ) : List ℕ :=
  if n = 0 then [0] else (Nat.digits 10 n).reverse

/-- JS `n.toString()` for a natural number. -/
def natStr (n : ℕ) : String := ⟨(decDigits n).map digitChar⟩

/-- Decode a most-significant-first digit character list. -/
def decToNat (cs : List Char) : ℕ :=
  Nat.ofDigits 10 (cs.map charDigit).reverse

/-- JS `parseInt(s, 10)` on the strings this code ever stores: a non-empty
all-digit string parses to its value; for anything else (e.g. the empty
string, which parses to NaN) the `for` loop guarded by the result runs zero
times, which is modelled as 0. -/
def jsParseNat (s : String) : ℕ :=
  if s.data ≠ [] ∧ s.data.all isDigitCh then decToNat s.data else 0

/-- The interpolated settings key `` `tour${i}${suffix}` `` (suffix is
`"_object"`, `"_text"` or `"_position"`). -/
def tourKey (i : ℕ) (suffix : String) : String :=
  "tour" ++ natStr i ++ suffix

/-- The `rows.forEach` of `handleSave` (Configure.jsx lines 202-206):
writes `tour{i}_object`, `tour{i}_text`, `tour{i}_position` for each row,
indices counted from `j`. -/
def setRowSettings : ℕ → List Row → Settings → Settings
  | _, [], m => m
  | j, r :: rs, m =>
      setRowSettings (j + 1) rs
        (setS (tourKey j "_position") r.position
          (setS (tourKey j "_text") r.text
            (setS (tourKey j "_object") r.object m)))

/-- `handleSave` (Configure.jsx lines 182-212): erase every existing key,
then write font, background color, transparency (already stringified),
`rowCount`, and the per-row keys. -/
def handleSave (rows : List Row) (font bg transp : String) : Settings :=
  setRowSettings 0 rows
    (setS "rowCount" (natStr rows.length)
      (setS "transparency" transp
        (setS "backgroundColor" bg
          (setS "selectedFont" font emptySettings))))

/-- The row-loading loop of the `Configure` dialog's load effect
(Configure.jsx lines 95-107): reads `rowCount` and materialises every index
in `[0, rowCount)`, defaulting absent/empty fields. -/
def loadRows (m : Settings) : List Row :=
  (List.range (jsParseNat (jsOr (m "rowCount") "0"))).map fun i =>
    { id := i
      object := jsOr (m (tourKey i "_object")) ""
      text := jsOr (m (tourKey i "_text")) ""
      position := jsOr (m (tourKey i "_position")) "right" }

/-- The coordinates persisted per step that playback compares
(`TourStep` record: target id, text, anchor position). -/
def rowFields (r : Row) : String × String × String :=
  (r.object, r.text, r.position)

/-- JS truthiness of `settings[k]` (`undefined` and `""` are falsy). -/
def truthyS (v : Option String) : Bool :=
  match v with
  | some s => s != ""
  | none => false

/-- The tour item `refreshTourItems` pushes for index `i` (App.jsx lines
178-190). -/
def itemOfSettings (m : Settings) (objMap : String → Option ObjDetails)
    (i : ℕ) : TourItem :=
  { objectId := (m (tourKey i "_object")).getD ""
    text := (m (tourKey i "_text")).getD ""
    position := jsOr (m (tourKey i "_position")) "right"
    details := objMap ((m (tourKey i "_object")).getD "") }

/-- The `for` loop of `refreshTourItems` (App.jsx lines 177-191) run for
indices `[0, k)`: a row is pushed only when both its object id and its text
are present and truthy. -/
def buildTourItems (m : Settings) (objMap : String → Option ObjDetails) :
    ℕ → List TourItem
  | 0 => []
  | k + 1 =>
      buildTourItems m objMap k ++
        (if truthyS (m (tourKey k "_object")) &&
            truthyS (m (tourKey k "_text")) then
          [itemOfSettings m objMap k]
        else [])

/-- The tour item list `refreshTourItems` builds from the settings and the
dashboard object map. -/
def refreshTourItems (m : Settings)
    (objMap : String → Option ObjDetails) : List TourItem :=
  buildTourItems m objMap (jsParseNat (jsOr (m "rowCount") "0"))

/-! Helper lemmas about the player state machine. -/

theorem updateBoxPositions_tourItems (ext : Option RectQ) (i : JsZ)
    (s : PlayerState) : (updateBoxPositions ext i s).tourItems = s.tourItems := by
  unfold updateBoxPositions
  split <;> rfl

theorem updateBoxPositions_currentStep (ext : Option RectQ) (i : JsZ)
    (s : PlayerState) :
    (updateBoxPositions ext i s).currentStep = s.currentStep := by
  unfold updateBoxPositions
  split <;> rfl

theorem jsIndex_nil (i : JsZ) : jsIndex [] i = none := by
  cases i with
  | none => rfl
  | some z => simp [jsIndex]

theorem updateBoxPositions_of_unresolved (ext : Option RectQ) (i : JsZ)
    (s : PlayerState) (h : jsIndex s.tourItems i = none) :
    updateBoxPositions ext i s = s := by
  unfold updateBoxPositions
  rw [h]

theorem handleNext_tourItems (ext : Option RectQ) (s : PlayerState) :
    (handleNext ext s).tourItems = s.tourItems := by
  simp [handleNext, updateBoxPositions_tourItems]

theorem handleNext_currentStep (ext : Option RectQ) (s : PlayerState) :
    (handleNext ext s).currentStep
      = jmodZ (jaddZ s.currentStep (some 1))
          (some (s.tourItems.length : ℤ)) := by
  simp [handleNext, updateBoxPositions_currentStep]

theorem handlePrevious_tourItems (ext : Option RectQ) (s : PlayerState) :
    (handlePrevious ext s).tourItems = s.tourItems := by
  simp [handlePrevious, updateBoxPositions_tourItems]

theorem handlePrevious_currentStep (ext : Option RectQ) (s : PlayerState) :
    (handlePrevious ext s).currentStep
      = jmodZ
          (jaddZ (jaddZ s.currentStep (some (-1)))
            (some (s.tourItems.length : ℤ)))
          (some (s.tourItems.length : ℤ)) := by
  simp [handlePrevious, updateBoxPositions_currentStep]

theorem jmodZ_natCast (p q : ℕ) (hq : q ≠ 0) :
    jmodZ (some (p : ℤ)) (some (q : ℤ)) = some ((p % q : ℕ) : ℤ) := by
  have hq' : ((q : ℤ)) ≠ 0 := by exact_mod_cast hq
  simp only [jmodZ, if_neg hq']
  rw [Int.tmod_eq_emod (Int.natCast_nonneg p) (Int.natCast_nonneg q)]
  norm_cast

theorem idxInv_applyAction (ext : Option RectQ) (items : List TourItem)
    (h0 : 0 < items.length) (s : PlayerState) (a : Action)
    (h : IdxInv items s) : IdxInv items (applyAction ext s a) := by
  obtain ⟨hitems, p, hp, hplt⟩ := h
  have hn : items.length ≠ 0 := Nat.pos_iff_ne_zero.mp h0
  cases a with
  | next =>
      refine ⟨by rw [applyAction, handleNext_tourItems, hitems], (p + 1) % items.length, ?_, Nat.mod_lt _ h0⟩
      rw [applyAction, handleNext_currentStep, hp, hitems]
      have h1 : jaddZ (some ((p : ℕ) : ℤ)) (some 1) = some (((p + 1 : ℕ)) : ℤ) := by
        simp [jaddZ]
      rw [h1, jmodZ_natCast _ _ hn]
  | previous =>
      refine ⟨by rw [applyAction, handlePrevious_tourItems, hitems], (p + items.length - 1) % items.length, ?_, Nat.mod_lt _ h0⟩
      rw [applyAction, handlePrevious_currentStep, hp, hitems]
      have h1 : jaddZ (jaddZ (some ((p : ℕ) : ℤ)) (some (-1)))
          (some (items.length : ℤ))
          = some (((p + items.length - 1 : ℕ)) : ℤ) := by
        simp only [jaddZ]
        congr 1
        omega
      rw [h1, jmodZ_natCast _ _ hn]
  | jump k =>
      rw [applyAction, jumpTo]
      split
      · next hk =>
          refine ⟨?_, k, ?_, ?_⟩
          · rw [updateBoxPositions_tourItems]
            exact hitems
          · rw [updateBoxPositions_currentStep]
          · rw [hitems] at hk
            exact hk
      · exact ⟨hitems, p, hp, hplt⟩

theorem idxInv_applyActions (ext : Option RectQ) (items : List TourItem)
    (h0 : 0 < items.length) (acts : List Action) (s : PlayerState)
    (h : IdxInv items s) : IdxInv items (applyActions ext s acts) := by
  induction acts generalizing s with
  | nil => exact h
  | cons a acts ih =>
      exact ih _ (idxInv_applyAction ext items h0 s a h)

theorem idxInv_loadItems (ext : Option RectQ) (items : List TourItem)
    (h0 : 0 < items.length) (s : PlayerState) :
    IdxInv items (loadItems ext items s) := by
  unfold loadItems
  split
  · exact ⟨by rw [updateBoxPositions_tourItems],
      0, by rw [updateBoxPositions_currentStep]; norm_num, h0⟩
  · exact ⟨rfl, 0, by norm_num, h0⟩

theorem emptyInv_applyAction (ext : Option RectQ) (s : PlayerState)
    (a : Action) (h : EmptyInv s) : EmptyInv (applyAction ext s a) := by
  obtain ⟨hitems, hbox, htext, hvis⟩ := h
  cases a with
  | next =>
      rw [applyAction, handleNext,
        updateBoxPositions_of_unresolved _ _ _ (by rw [hitems]; exact jsIndex_nil _)]
      exact ⟨hitems, hbox, htext, rfl⟩
  | previous =>
      rw [applyAction, handlePrevious,
        updateBoxPositions_of_unresolved _ _ _ (by rw [hitems]; exact jsIndex_nil _)]
      exact ⟨hitems, hbox, htext, rfl⟩
  | jump k =>
      rw [applyAction, jumpTo, if_neg (by rw [hitems]; simp)]
      exact ⟨hitems, hbox, htext, hvis⟩

theorem emptyInv_applyActions (ext : Option RectQ) (acts : List Action)
    (s : PlayerState) (h : EmptyInv s) :
    EmptyInv (applyActions ext s acts) := by
  induction acts generalizing s with
  | nil => exact h
  | cons a acts ih => exact ih _ (emptyInv_applyAction ext s a h)

theorem emptyInv_loadItems (ext : Option RectQ) :
    EmptyInv (loadItems ext [] initState) := by
  unfold loadItems
  split
  · next hc => simp at hc
  · exact ⟨rfl, rfl, rfl, rfl⟩

theorem emptyInv_rendersNothing (s : PlayerState) (h : EmptyInv s) :
    jsIndex s.tourItems s.currentStep = none ∧ rendersNothing s := by
  obtain ⟨hitems, hbox, htext, hvis⟩ := h
  have hidx : jsIndex s.tourItems s.currentStep = none := by
    rw [hitems]; exact jsIndex_nil _
  exact ⟨hidx, hbox, by simp [textBoxRendered, hidx]⟩

theorem applyAction_tourItems (ext : Option RectQ) (s : PlayerState)
    (a : Action) : (applyAction ext s a).tourItems = s.tourItems := by
  cases a with
  | next => exact handleNext_tourItems ext s
  | previous => exact handlePrevious_tourItems ext s
  | jump k =>
      rw [applyAction, jumpTo]
      split
      · rw [updateBoxPositions_tourItems]
      · rfl

theorem currentStep_none_after (ext : Option RectQ) (s : PlayerState)
    (hs : s.tourItems = []) (a : Action)
    (hna : a = Action.next ∨ a = Action.previous) :
    (applyAction ext s a).currentStep = none := by
  rcases hna with h | h <;> subst h
  · rw [applyAction, handleNext_currentStep, hs]
    cases hcs : s.currentStep <;> simp [jaddZ, jmodZ]
  · rw [applyAction, handlePrevious_currentStep, hs]
    cases hcs : s.currentStep <;> simp [jaddZ, jmodZ]

theorem currentStep_none_applyActions (ext : Option RectQ)
    (acts : List Action) (s : PlayerState) (h1 : s.tourItems = [])
    (h2 : s.currentStep = none) :
    (applyActions ext s acts).currentStep = none := by
  induction acts generalizing s with
  | nil => exact h2
  | cons b bs ih =>
      apply ih
      · rw [applyAction_tourItems]; exact h1
      · cases b with
        | next =>
            rw [applyAction, handleNext_currentStep, h2]
            rfl
        | previous =>
            rw [applyAction, handlePrevious_currentStep, h2]
            rfl
        | jump k =>
            rw [applyAction, jumpTo, if_neg (by rw [h1]; simp)]
            exact h2

theorem loadItems_tourItems (ext : Option RectQ) (items : List TourItem)
    (s : PlayerState) : (loadItems ext items s).tourItems = items := by
  unfold loadItems
  split
  · rw [updateBoxPositions_tourItems]
  · rfl

theorem loadItems_currentStep (ext : Option RectQ) (items : List TourItem)
    (s : PlayerState) : (loadItems ext items s).currentStep = some 0 := by
  unfold loadItems
  split
  · rw [updateBoxPositions_currentStep]
  · rfl

theorem handleNext_iterate (ext : Option RectQ) (items : List TourItem)
    (h0 : 0 < items.length) (s : PlayerState) (p : ℕ)
    (hitems : s.tourItems = items)
    (hp : s.currentStep = some ((p % items.length : ℕ) : ℤ)) (k : ℕ) :
    ((handleNext ext)^[k] s).tourItems = items ∧
      ((handleNext ext)^[k] s).currentStep
        = some (((p + k) % items.length : ℕ) : ℤ) := by
  have hn : items.length ≠ 0 := by omega
  induction k with
  | zero => simpa using ⟨hitems, hp⟩
  | succ k ih =>
      obtain ⟨ih1, ih2⟩ := ih
      rw [Function.iterate_succ_apply']
      refine ⟨by rw [handleNext_tourItems]; exact ih1, ?_⟩
      rw [handleNext_currentStep, ih2, ih1]
      have h1 : jaddZ (some (((p + k) % items.length : ℕ) : ℤ)) (some 1)
          = some (((p + k) % items.length + 1 : ℕ) : ℤ) := by
        simp [jaddZ]
      rw [h1, jmodZ_natCast _ _ hn, Nat.mod_add_mod]
      congr 2

theorem handlePrevious_iterate (ext : Option RectQ) (items : List TourItem)
    (h0 : 0 < items.length) (s : PlayerState) (q : ℕ)
    (hitems : s.tourItems = items)
    (hq : s.currentStep = some ((q % items.length : ℕ) : ℤ)) (k : ℕ) :
    ((handlePrevious ext)^[k] s).tourItems = items ∧
      ((handlePrevious ext)^[k] s).currentStep
        = some (((q + k * (items.length - 1)) % items.length : ℕ) : ℤ) := by
  have hn : items.length ≠ 0 := by omega
  induction k with
  | zero => simpa using ⟨hitems, hq⟩
  | succ k ih =>
      obtain ⟨ih1, ih2⟩ := ih
      rw [Function.iterate_succ_apply']
      refine ⟨by rw [handlePrevious_tourItems]; exact ih1, ?_⟩
      rw [handlePrevious_currentStep, ih2, ih1]
      have h1 : jaddZ
          (jaddZ (some (((q + k * (items.length - 1)) % items.length : ℕ) : ℤ))
            (some (-1)))
          (some (items.length : ℤ))
          = some (((q + k * (items.length - 1)) % items.length
              + items.length - 1 : ℕ) : ℤ) := by
        simp only [jaddZ]
        congr 1
        omega
      rw [h1, jmodZ_natCast _ _ hn]
      congr 1
      have h2 : (q + k * (items.length - 1)) % items.length
            + items.length - 1
          = (q + k * (items.length - 1)) % items.length
            + (items.length - 1) := by
        omega
      rw [h2, Nat.mod_add_mod, Nat.succ_mul, ← Nat.add_assoc]

theorem jsIndex_cast (items : List TourItem) (k : ℕ) (item : TourItem)
    (hk : items.get? k = some item) :
    jsIndex items (some (k : ℤ)) = some item := by
  obtain ⟨hklen, hget⟩ := List.get?_eq_some.mp hk
  rw [jsIndex,
    dif_pos (⟨Int.natCast_nonneg k, by simpa using hklen⟩ :
      0 ≤ (k : ℤ) ∧ (k : ℤ).toNat < items.length)]
  rw [← hget]
  congr 1

theorem updateBoxPositions_of_resolved (e : RectQ) (i : JsZ)
    (s : PlayerState) (item : TourItem)
    (h : jsIndex s.tourItems i = some item) :
    updateBoxPositions (some e) i s
      = { s with
          boxPositions := some (maskPositionsOf e item.details)
          textPosition := some (textBoxOf e item.details item.position)
          textVisible := true } := by
  unfold updateBoxPositions
  rw [h]

theorem textBoxOf_none (e : RectQ) (position : String) :
    textBoxOf e none position
      = { width := maxTextBoxWidth, top := none, left := none } := by
  unfold textBoxOf
  split_ifs <;> rfl

theorem swapAdj_of_lt {α : Type} (l : List α) (j : ℕ)
    (hj : j + 1 < l.length) :
    swapAdj l j = (l.set j l[j + 1]).set (j + 1) l[j] := by
  have hga : l[j]? = some l[j] := List.getElem?_eq_getElem (by omega)
  have hgb : l[j + 1]? = some l[j + 1] := List.getElem?_eq_getElem hj
  unfold swapAdj
  rw [hga, hgb]

theorem swapAdj_length {α : Type} (l : List α) (j : ℕ) :
    (swapAdj l j).length = l.length := by
  unfold swapAdj
  split <;> simp [List.length_set]

theorem swapAdj_swapAdj {α : Type} (l : List α) (j : ℕ)
    (hj : j + 1 < l.length) :
    swapAdj (swapAdj l j) j = l := by
  have hjl : j < l.length := by omega
  rw [swapAdj_of_lt l j hj]
  have hlen2 : ((l.set j l[j + 1]).set (j + 1) l[j]).length = l.length := by
    simp [List.length_set]
  have hga : ((l.set j l[j + 1]).set (j + 1) l[j])[j]? = some l[j + 1] := by
    rw [List.getElem?_set_ne (by omega), List.getElem?_set_self hjl]
  have hgb : ((l.set j l[j + 1]).set (j + 1) l[j])[j + 1]?
      = some l[j] := by
    rw [List.getElem?_set_self (by simp [List.length_set]; omega)]
  unfold swapAdj
  rw [hga, hgb]
  apply List.ext_getElem?
  intro m
  by_cases h1 : m = j
  · subst h1
    rw [List.getElem?_set_ne (by omega),
      List.getElem?_set_self (by rw [hlen2]; omega)]
    exact (List.getElem?_eq_getElem hjl).symm
  · by_cases h2 : m = j + 1
    · subst h2
      rw [List.getElem?_set_self (by simp [List.length_set]; omega)]
      exact (List.getElem?_eq_getElem hj).symm
    · rw [List.getElem?_set_ne (by omega), List.getElem?_set_ne (by omega),
        List.getElem?_set_ne (by omega), List.getElem?_set_ne (by omega)]

end TableauTour

namespace TableauTour

/-- The mask-tiling property (claim C1): the four masks tile the container
around the target horizontally and vertically, with the stated formulas, and
the overlap constant appears only in the left/right mask heights. -/
theorem mask_tiling (t : ObjDetails) (c : RectQ)
    (hw : 0 ≤ c.width) (hh : 0 ≤ c.height) :
    jadd (jadd ((maskPositionsOf c (some t)).left.width.pxVal) (some t.width))
        ((maskPositionsOf c (some t)).right.width.pxVal) = some c.width ∧
    jadd (jadd ((maskPositionsOf c (some t)).top.height) (some t.height))
        ((maskPositionsOf c (some t)).bottom.height) = some c.height ∧
    (maskPositionsOf c (some t)).left.width.pxVal = some (t.x - c.x) ∧
    (maskPositionsOf c (some t)).right.width.pxVal
      = some (c.width - ((t.x - c.x) + t.width)) ∧
    (maskPositionsOf c (some t)).top.height = some (t.y - c.y) ∧
    (maskPositionsOf c (some t)).bottom.height
      = some (c.height - ((t.y - c.y) + t.height)) ∧
    (maskPositionsOf c (some t)).left.height
      = some (t.height + verticalOverlap) ∧
    (maskPositionsOf c (some t)).right.height
      = some (t.height + verticalOverlap) := by
  refine ⟨?_, ?_, ?_, ?_, ?_, ?_, ?_, ?_⟩ <;>
    simp only [maskPositionsOf, CssDim.pxVal, detX, detY, detW, detH,
      Option.map, jadd, jsub] <;>
    first
    | rfl
    | (congr 1; ring)

/-- Witness for `mask_tiling` at the spec's concrete scenario. -/
theorem mask_tiling_witness :
    (0 : ℚ) ≤ (800 : ℚ) ∧
    jadd (jadd ((maskPositionsOf ⟨0, 0, 800, 600⟩
        (some ⟨100, 100, 200, 50⟩)).left.width.pxVal) (some 200))
      ((maskPositionsOf ⟨0, 0, 800, 600⟩
        (some ⟨100, 100, 200, 50⟩)).right.width.pxVal) = some 800 :=
  ⟨by norm_num,
    (mask_tiling ⟨100, 100, 200, 50⟩ ⟨0, 0, 800, 600⟩ (by norm_num)
      (by norm_num)).1⟩

/-- Concrete scenario (claim C2): container 800×600 at the origin, target at
(100,100) sized 200×50, anchor `"right"`; every field of the four masks and
of the tooltip box has exactly the value the spec lists (top/bottom mask
widths are the CSS string `"100%"`, which renders as the container width
800). -/
theorem concrete_scenario :
    (maskPositionsOf ⟨0, 0, 800, 600⟩ (some ⟨100, 100, 200, 50⟩)).left
        = { top := some 100, left := some 0, width := .px (some 100),
            height := some (501 / 10) } ∧
    (maskPositionsOf ⟨0, 0, 800, 600⟩ (some ⟨100, 100, 200, 50⟩)).right
        = { top := some 100, left := some 300, width := .px (some 500),
            height := some (501 / 10) } ∧
    (maskPositionsOf ⟨0, 0, 800, 600⟩ (some ⟨100, 100, 200, 50⟩)).top
        = { top := some 0, left := some 0, width := .pct100,
            height := some 100 } ∧
    (maskPositionsOf ⟨0, 0, 800, 600⟩
        (some ⟨100, 100, 200, 50⟩)).top.width.renderedPx 800 = some 800 ∧
    (maskPositionsOf ⟨0, 0, 800, 600⟩ (some ⟨100, 100, 200, 50⟩)).bottom
        = { top := some 150, left := some 0, width := .pct100,
            height := some 450 } ∧
    (maskPositionsOf ⟨0, 0, 800, 600⟩
        (some ⟨100, 100, 200, 50⟩)).bottom.width.renderedPx 800 = some 800 ∧
    textBoxOf ⟨0, 0, 800, 600⟩ (some ⟨100, 100, 200, 50⟩) "right"
        = { width := 300, top := some 100, left := some 310 } := by
  refine ⟨?_, ?_, ?_, ?_, ?_, ?_, ?_⟩ <;>
    simp [maskPositionsOf, textBoxOf, jadd, jsub, jmax, detX, detY, detW, detH,
      verticalOverlap, maxTextBoxWidth, textPadding, CssDim.renderedPx] <;>
    norm_num

/-- PlaybackState index invariant (claim C3): from a fresh mount, after
loading any tour sequence and applying any finite sequence of next /
previous / jump-to-step transitions, the current step index is a natural
number below the sequence length whenever the sequence is non-empty; for the
empty sequence no step is current and nothing renders. -/
theorem player_index_invariant (items : List TourItem) (ext : Option RectQ)
    (acts : List Action) :
    (0 < items.length →
      ∃ p : ℕ,
        (applyActions ext (loadItems ext items initState) acts).currentStep
            = some (p : ℤ) ∧
          p < items.length) ∧
    (items = [] →
      jsIndex (applyActions ext (loadItems ext items initState) acts).tourItems
          (applyActions ext (loadItems ext items initState) acts).currentStep
          = none ∧
        rendersNothing (applyActions ext (loadItems ext items initState) acts)) := by
  constructor
  · intro h0
    obtain ⟨-, p, hp, hlt⟩ := idxInv_applyActions ext items h0 acts _
      (idxInv_loadItems ext items h0 initState)
    exact ⟨p, hp, hlt⟩
  · intro he
    subst he
    exact emptyInv_rendersNothing _
      (emptyInv_applyActions ext acts _ (emptyInv_loadItems ext))

/-- Witness for `player_index_invariant` on a one-step tour and one `next`. -/
theorem player_index_invariant_witness :
    ∃ p : ℕ,
      (applyActions extC (loadItems extC [sampleItem] initState)
          [Action.next]).currentStep = some (p : ℤ) ∧
        p < [sampleItem].length :=
  (player_index_invariant [sampleItem] extC [Action.next]).1 (by decide)

/-- Counterexample to claim C4: after loading an empty sequence, `next()` and
`previous()` are not no-ops — JavaScript `(0 + 1) % 0` is NaN, so the current
index changes from 0 to NaN (and likewise for `previous`). -/
theorem empty_next_not_noop :
    emptyLoaded.currentStep = some 0 ∧
    (handleNext extC emptyLoaded).currentStep = none ∧
    handleNext extC emptyLoaded ≠ emptyLoaded ∧
    (handlePrevious extC emptyLoaded).currentStep = none ∧
    handlePrevious extC emptyLoaded ≠ emptyLoaded := by
  decide

/-- Amended claim C4: after loading an empty sequence the player shows no
step and produces no layout, and any sequence of `next`/`previous` calls
keeps the item list, layout and visibility unchanged with nothing rendered —
but the calls are not full no-ops: the first one sets the current index to
NaN (JS `% 0`), where it stays. -/
theorem empty_sequence_navigation (ext : Option RectQ) (acts : List Action)
    (ha : ∀ a ∈ acts, a = Action.next ∨ a = Action.previous) :
    EmptyInv (applyActions ext (loadItems ext [] initState) acts) ∧
    rendersNothing (applyActions ext (loadItems ext [] initState) acts) ∧
    (acts ≠ [] →
      (applyActions ext (loadItems ext [] initState) acts).currentStep
        = none) := by
  have hE := emptyInv_applyActions ext acts _ (emptyInv_loadItems ext)
  refine ⟨hE, (emptyInv_rendersNothing _ hE).2, ?_⟩
  intro hne
  cases acts with
  | nil => exact absurd rfl hne
  | cons a rest =>
      have hload := emptyInv_loadItems ext
      show (applyActions ext
        (applyAction ext (loadItems ext [] initState) a) rest).currentStep
          = none
      apply currentStep_none_applyActions
      · rw [applyAction_tourItems]
        exact hload.1
      · exact currentStep_none_after ext _ hload.1 a (ha a (by simp))

/-- Witness for `empty_sequence_navigation` with one `next` call. -/
theorem empty_sequence_navigation_witness :
    EmptyInv (applyActions extC (loadItems extC [] initState) [Action.next]) ∧
    rendersNothing
      (applyActions extC (loadItems extC [] initState) [Action.next]) ∧
    ([Action.next] ≠ [] →
      (applyActions extC (loadItems extC [] initState)
          [Action.next]).currentStep = none) :=
  empty_sequence_navigation extC [Action.next] (by decide)

/-- Circular navigation (claim C5): from a freshly loaded sequence of length
`n ≥ 1` (current index 0), `n` calls of `next()` return the current index to
0, and so do `n` calls of `previous()`. -/
theorem circular_navigation (items : List TourItem) (ext : Option RectQ)
    (h0 : 0 < items.length) :
    ((handleNext ext)^[items.length]
        (loadItems ext items initState)).currentStep = some 0 ∧
    ((handlePrevious ext)^[items.length]
        (loadItems ext items initState)).currentStep = some 0 := by
  have hitems := loadItems_tourItems ext items initState
  have hstep : (loadItems ext items initState).currentStep
      = some ((0 % items.length : ℕ) : ℤ) := by
    rw [loadItems_currentStep]
    norm_num
  constructor
  · have h := (handleNext_iterate ext items h0 _ 0 hitems hstep
      items.length).2
    rw [h]
    norm_num
  · have h := (handlePrevious_iterate ext items h0 _ 0 hitems hstep
      items.length).2
    rw [h]
    simp [Nat.mul_mod_right]

/-- Witness for `circular_navigation` on a one-step tour. -/
theorem circular_navigation_witness :
    ((handleNext extC)^[[sampleItem].length]
        (loadItems extC [sampleItem] initState)).currentStep = some 0 ∧
    ((handlePrevious extC)^[[sampleItem].length]
        (loadItems extC [sampleItem] initState)).currentStep = some 0 :=
  circular_navigation [sampleItem] extC (by decide)

/-- Counterexample to claim C6: loading a one-step tour whose `targetId`
resolves to no dashboard object (details fall back to `{}`, which is truthy)
does NOT leave the layout absent: mask and tooltip positions are set (full of
NaN coordinates), the tooltip is marked visible, and its render condition
holds. -/
theorem unresolved_target_layout_not_absent :
    (loadItems extC [ghostItem] initState).boxPositions ≠ none ∧
    (loadItems extC [ghostItem] initState).textPosition ≠ none ∧
    (loadItems extC [ghostItem] initState).textVisible = true ∧
    textBoxRendered (loadItems extC [ghostItem] initState) = true := by
  decide

/-- Amended claim C6: a transition into a step whose `targetId` does not
resolve does not error and the player stays on that index, but mask and
tooltip layouts are still produced — with every target-dependent coordinate
NaN (the `{}` details' fields are `undefined`) — and the tooltip is marked
visible. -/
theorem failsoft_nan_layout (e : RectQ) (s : PlayerState) (k : ℕ)
    (item : TourItem) (hk : s.tourItems.get? k = some item)
    (hd : item.details = none) :
    (jumpTo (some e) k s).currentStep = some (k : ℤ) ∧
    (jumpTo (some e) k s).boxPositions = some
      { top := { top := some 0, left := some 0, width := .pct100,
                 height := none }
        left := { top := none, left := some 0, width := .px none,
                  height := none }
        right := { top := none, left := none, width := .px none,
                   height := none }
        bottom := { top := none, left := some 0, width := .pct100,
                    height := none } } ∧
    (jumpTo (some e) k s).textPosition
      = some { width := maxTextBoxWidth, top := none, left := none } ∧
    (jumpTo (some e) k s).textVisible = true := by
  obtain ⟨hklen, -⟩ := List.get?_eq_some.mp hk
  have hidx : jsIndex s.tourItems (some (k : ℤ)) = some item :=
    jsIndex_cast s.tourItems k item hk
  rw [jumpTo, if_pos hklen,
    updateBoxPositions_of_resolved e _ _ item (by simpa using hidx), hd,
    textBoxOf_none]
  refine ⟨rfl, ?_, rfl, rfl⟩
  rfl

/-- Witness for `failsoft_nan_layout`: jump to the unresolvable step of a
one-step tour. -/
theorem failsoft_nan_layout_witness :
    (jumpTo (some ⟨0, 0, 800, 600⟩) 0 ghostState).currentStep
        = some ((0 : ℕ) : ℤ) ∧
    (jumpTo (some ⟨0, 0, 800, 600⟩) 0 ghostState).boxPositions = some
      { top := { top := some 0, left := some 0, width := .pct100,
                 height := none }
        left := { top := none, left := some 0, width := .px none,
                  height := none }
        right := { top := none, left := none, width := .px none,
                   height := none }
        bottom := { top := none, left := some 0, width := .pct100,
                    height := none } } ∧
    (jumpTo (some ⟨0, 0, 800, 600⟩) 0 ghostState).textPosition
      = some { width := maxTextBoxWidth, top := none, left := none } ∧
    (jumpTo (some ⟨0, 0, 800, 600⟩) 0 ghostState).textVisible = true :=
  failsoft_nan_layout ⟨0, 0, 800, 600⟩ ghostState 0 ghostItem rfl rfl

/-- Reorder invariants (claim C7): `handleMoveUp` at index 0 and
`handleMoveDown` at the last index (`rows.length - 1`, an integer) are
no-ops, and for `1 ≤ i < n`, `handleMoveUp(i)` followed by
`handleMoveDown(i-1)` restores the original row order. -/
theorem reorder_invariants (l : List Row) :
    handleMoveUp l 0 = l ∧
    handleMoveDown l ((l.length : ℤ) - 1) = l ∧
    ∀ i : ℕ, 1 ≤ i → i < l.length →
      handleMoveDown (handleMoveUp l (i : ℤ)) ((i : ℤ) - 1) = l := by
  refine ⟨by unfold handleMoveUp; rw [if_pos rfl],
    by unfold handleMoveDown; rw [if_pos rfl], ?_⟩
  intro i h1 h2
  have hne0 : ((i : ℤ)) ≠ 0 := by omega
  have hpos : (0 : ℤ) < (i : ℤ) := by omega
  have htn : ((i : ℤ)).toNat - 1 = i - 1 := by omega
  unfold handleMoveUp
  rw [if_neg hne0, if_pos hpos, htn]
  have hlen : (swapAdj l (i - 1)).length = l.length := swapAdj_length l (i - 1)
  unfold handleMoveDown
  rw [hlen, if_neg (by omega : ¬ ((i : ℤ) - 1 = (l.length : ℤ) - 1)),
    if_pos (by omega : (0 : ℤ) ≤ (i : ℤ) - 1),
    (by omega : ((i : ℤ) - 1).toNat = i - 1)]
  exact swapAdj_swapAdj l (i - 1) (by omega)

/-- Witness for `reorder_invariants` on a two-row list with `i = 1`. -/
theorem reorder_invariants_witness :
    handleMoveUp sampleRows 0 = sampleRows ∧
    handleMoveDown sampleRows ((sampleRows.length : ℤ) - 1) = sampleRows ∧
    handleMoveDown (handleMoveUp sampleRows ((1 : ℕ) : ℤ))
        (((1 : ℕ) : ℤ) - 1) = sampleRows :=
  ⟨(reorder_invariants sampleRows).1, (reorder_invariants sampleRows).2.1,
    (reorder_invariants sampleRows).2.2 1 (by decide) (by decide)⟩

/-- Claim C8 fails on the code (a code bug): starting from an empty row
list, `add, add, delete(0), add` yields two rows that share the synthetic
id 1 (`handleAddRow` assigns `id = prev.length`, which can collide after a
deletion, contradicting `handleDeleteRow`'s documented "unique identifier").
Deleting the step with id 1 then removes BOTH rows instead of exactly one. -/
theorem duplicate_id_double_delete :
    (handleAddRow (handleDeleteRow (handleAddRow (handleAddRow [])) 0)).map
        Row.id = [1, 1] ∧
    (handleAddRow (handleDeleteRow (handleAddRow (handleAddRow [])) 0)).length
        = 2 ∧
    (handleDeleteRow
        (handleAddRow (handleDeleteRow (handleAddRow (handleAddRow [])) 0))
        1).length = 0 := by
  decide

/-! Decimal strings: JS `toString`/`parseInt` round-trip and key
disjointness of the interpolated `tour{i}_*` settings keys. -/

theorem charDigit_digitChar (d : ℕ) (hd : d < 10) :
    charDigit (digitChar d) = d := by
  interval_cases d <;> decide

theorem isDigitCh_digitChar (d : ℕ) (hd : d < 10) :
    isDigitCh (digitChar d) = true := by
  interval_cases d <;> decide

theorem decDigits_lt (n : ℕ) : ∀ d ∈ decDigits n, d < 10 := by
  unfold decDigits
  split
  · intro d hd
    simp at hd
    omega
  · intro d hd
    exact Nat.digits_lt_base (by norm_num) (List.mem_reverse.mp hd)

theorem decDigits_ne_nil (n : ℕ) : decDigits n ≠ [] := by
  unfold decDigits
  split
  · simp
  · next h => simp [Nat.digits_ne_nil_iff_ne_zero.mpr h]

theorem natStr_data (n : ℕ) :
    (natStr n).data = (decDigits n).map digitChar := rfl

theorem decToNat_natStr (n : ℕ) : decToNat (natStr n).data = n := by
  rw [natStr_data]
  unfold decToNat
  rw [List.map_map]
  have hmap : (decDigits n).map (charDigit ∘ digitChar)
      = (decDigits n).map id :=
    List.map_congr_left (fun d hd => charDigit_digitChar d (decDigits_lt n d hd))
  rw [hmap, List.map_id]
  unfold decDigits
  split
  · next h => rw [h]; decide
  · rw [List.reverse_reverse, Nat.ofDigits_digits]

theorem natStr_data_ne_nil (n : ℕ) : (natStr n).data ≠ [] := by
  rw [natStr_data]
  simp [decDigits_ne_nil n]

theorem natStr_ne_empty (n : ℕ) : natStr n ≠ "" := by
  intro h
  exact natStr_data_ne_nil n (congrArg String.data h)

theorem natStr_all_digits (n : ℕ) :
    ∀ c ∈ (natStr n).data, isDigitCh c = true := by
  rw [natStr_data]
  intro c hc
  obtain ⟨d, hd, rfl⟩ := List.mem_map.mp hc
  exact isDigitCh_digitChar d (decDigits_lt n d hd)

theorem jsParseNat_natStr (n : ℕ) : jsParseNat (natStr n) = n := by
  unfold jsParseNat
  rw [if_pos ⟨natStr_data_ne_nil n, List.all_eq_true.mpr (natStr_all_digits n)⟩]
  exact decToNat_natStr n

theorem natStr_inj {m n : ℕ} (h : natStr m = natStr n) : m = n := by
  have h2 := congrArg (fun s => decToNat (String.data s)) h
  simpa [decToNat_natStr] using h2

theorem isDigitCh_ne_underscore (c : Char) (h : isDigitCh c = true) :
    c ≠ '_' := by
  intro hc
  subst hc
  revert h
  decide

theorem digits_underscore_split (a : List Char) :
    ∀ (b t1 t2 : List Char), (∀ c ∈ a, isDigitCh c = true) →
      (∀ c ∈ b, isDigitCh c = true) →
      a ++ '_' :: t1 = b ++ '_' :: t2 → a = b ∧ t1 = t2 := by
  induction a with
  | nil =>
      intro b t1 t2 _ hb h
      cases b with
      | nil => simpa using h
      | cons y ys =>
          exfalso
          simp only [List.nil_append, List.cons_append, List.cons.injEq] at h
          exact isDigitCh_ne_underscore y (hb y (by simp)) h.1.symm
  | cons x xs ih =>
      intro b t1 t2 ha hb h
      cases b with
      | nil =>
          exfalso
          simp only [List.nil_append, List.cons_append, List.cons.injEq] at h
          exact isDigitCh_ne_underscore x (ha x (by simp)) h.1
      | cons y ys =>
          simp only [List.cons_append, List.cons.injEq] at h
          obtain ⟨rfl, h2⟩ := h
          obtain ⟨h3, h4⟩ := ih ys t1 t2 (fun c hc => ha c (by simp [hc]))
            (fun c hc => hb c (by simp [hc])) h2
          exact ⟨by rw [h3], h4⟩

theorem tourKey_data (i : ℕ) (s : String) :
    (tourKey i s).data
      = 't' :: 'o' :: 'u' :: 'r' :: ((natStr i).data ++ s.data) := by
  unfold tourKey
  rw [String.data_append, String.data_append, List.append_assoc]
  rfl

theorem tourKey_inj (i j : ℕ) (s1 s2 : String)
    (hs1 : s1 = "_object" ∨ s1 = "_text" ∨ s1 = "_position")
    (hs2 : s2 = "_object" ∨ s2 = "_text" ∨ s2 = "_position")
    (h : tourKey i s1 = tourKey j s2) : i = j ∧ s1 = s2 := by
  have hd := congrArg String.data h
  rw [tourKey_data, tourKey_data] at hd
  simp only [List.cons.injEq, true_and] at hd
  rcases hs1 with rfl | rfl | rfl <;> rcases hs2 with rfl | rfl | rfl <;>
    · obtain ⟨ha, hb⟩ := digits_underscore_split (natStr i).data
        (natStr j).data _ _ (natStr_all_digits i) (natStr_all_digits j) hd
      first
      | exact ⟨natStr_inj (String.ext ha), rfl⟩
      | exact absurd hb (by decide)

theorem tourKey_ne_rowCount (i : ℕ) (s : String) : tourKey i s ≠ "rowCount" := by
  intro h
  have hd := congrArg String.data h
  rw [tourKey_data,
    show ("rowCount").data
      = 'r' :: 'o' :: 'w' :: 'C' :: 'o' :: 'u' :: 'n' :: 't' :: [] from rfl] at hd
  injection hd with h1 _
  exact absurd h1 (by decide)

theorem tourKey_ne_transparency (i : ℕ) (s : String) :
    tourKey i s ≠ "transparency" := by
  intro h
  have hd := congrArg String.data h
  rw [tourKey_data,
    show ("transparency").data
      = 't' :: 'r' :: 'a' :: 'n' :: 's' :: 'p' :: 'a' :: 'r' :: 'e' :: 'n'
        :: 'c' :: 'y' :: [] from rfl] at hd
  injection hd with h1 h2
  injection h2 with h3 _
  exact absurd h3 (by decide)

theorem tourKey_ne_backgroundColor (i : ℕ) (s : String) :
    tourKey i s ≠ "backgroundColor" := by
  intro h
  have hd := congrArg String.data h
  rw [tourKey_data,
    show ("backgroundColor").data
      = 'b' :: 'a' :: 'c' :: 'k' :: 'g' :: 'r' :: 'o' :: 'u' :: 'n' :: 'd'
        :: 'C' :: 'o' :: 'l' :: 'o' :: 'r' :: [] from rfl] at hd
  injection hd with h1 _
  exact absurd h1 (by decide)

theorem tourKey_ne_selectedFont (i : ℕ) (s : String) :
    tourKey i s ≠ "selectedFont" := by
  intro h
  have hd := congrArg String.data h
  rw [tourKey_data,
    show ("selectedFont").data
      = 's' :: 'e' :: 'l' :: 'e' :: 'c' :: 't' :: 'e' :: 'd' :: 'F' :: 'o'
        :: 'n' :: 't' :: [] from rfl] at hd
  injection hd with h1 _
  exact absurd h1 (by decide)

theorem tourKey_suffix_ne (i j : ℕ) (s1 s2 : String)
    (hs1 : s1 = "_object" ∨ s1 = "_text" ∨ s1 = "_position")
    (hs2 : s2 = "_object" ∨ s2 = "_text" ∨ s2 = "_position")
    (hne : s1 ≠ s2) : tourKey i s1 ≠ tourKey j s2 :=
  fun he => hne (tourKey_inj i j s1 s2 hs1 hs2 he).2

theorem setRowSettings_notTour (rs : List Row) :
    ∀ (j : ℕ) (m : Settings) (k : String),
      (∀ i s, j ≤ i → (s = "_object" ∨ s = "_text" ∨ s = "_position") →
        k ≠ tourKey i s) →
      setRowSettings j rs m k = m k := by
  induction rs with
  | nil => intro j m k _; rfl
  | cons r rs ih =>
      intro j m k hk
      show setRowSettings (j + 1) rs _ k = m k
      rw [ih (j + 1) _ k (fun i s hi hs => hk i s (by omega) hs)]
      unfold setS
      rw [if_neg (hk j "_position" (le_refl j) (Or.inr (Or.inr rfl))),
        if_neg (hk j "_text" (le_refl j) (Or.inr (Or.inl rfl))),
        if_neg (hk j "_object" (le_refl j) (Or.inl rfl))]

theorem setRowSettings_get (rs : List Row) :
    ∀ (j i : ℕ) (m : Settings) (hi : i < rs.length),
      setRowSettings j rs m (tourKey (j + i) "_object")
          = some ((rs.get ⟨i, hi⟩).object) ∧
      setRowSettings j rs m (tourKey (j + i) "_text")
          = some ((rs.get ⟨i, hi⟩).text) ∧
      setRowSettings j rs m (tourKey (j + i) "_position")
          = some ((rs.get ⟨i, hi⟩).position) := by
  induction rs with
  | nil => intro j i m hi; simp at hi
  | cons r rs ih =>
      intro j i m hi
      cases i with
      | zero =>
          rw [Nat.add_zero]
          have hpass : ∀ s, (s = "_object" ∨ s = "_text" ∨ s = "_position") →
              setRowSettings (j + 1) rs
                (setS (tourKey j "_position") r.position
                  (setS (tourKey j "_text") r.text
                    (setS (tourKey j "_object") r.object m))) (tourKey j s)
              = (setS (tourKey j "_position") r.position
                  (setS (tourKey j "_text") r.text
                    (setS (tourKey j "_object") r.object m))) (tourKey j s) :=
            fun s hs => setRowSettings_notTour rs (j + 1) _ (tourKey j s)
              (fun i2 s2 hi2 hs2 he => by
                obtain ⟨hij, -⟩ := tourKey_inj j i2 s s2 hs hs2 he
                omega)
          refine ⟨?_, ?_, ?_⟩
          · show setRowSettings (j + 1) rs _ (tourKey j "_object") = _
            rw [hpass "_object" (Or.inl rfl)]
            unfold setS
            rw [if_neg (tourKey_suffix_ne j j "_object" "_position"
                  (Or.inl rfl) (Or.inr (Or.inr rfl)) (by decide)),
              if_neg (tourKey_suffix_ne j j "_object" "_text"
                  (Or.inl rfl) (Or.inr (Or.inl rfl)) (by decide)),
              if_pos rfl]
            rfl
          · show setRowSettings (j + 1) rs _ (tourKey j "_text") = _
            rw [hpass "_text" (Or.inr (Or.inl rfl))]
            unfold setS
            rw [if_neg (tourKey_suffix_ne j j "_text" "_position"
                  (Or.inr (Or.inl rfl)) (Or.inr (Or.inr rfl)) (by decide)),
              if_pos rfl]
            rfl
          · show setRowSettings (j + 1) rs _ (tourKey j "_position") = _
            rw [hpass "_position" (Or.inr (Or.inr rfl))]
            unfold setS
            rw [if_pos rfl]
            rfl
      | succ i2 =>
          have hj2 : j + (i2 + 1) = (j + 1) + i2 := by omega
          rw [hj2]
          exact ih (j + 1) i2 _ (by simpa using hi)

theorem jsOr_some_empty (v : String) : jsOr (some v) "" = v := by
  show (if v = "" then "" else v) = v
  split_ifs with h
  · exact h.symm
  · rfl

theorem jsOr_some_of_ne (v d : String) (h : v ≠ "") : jsOr (some v) d = v := by
  show (if v = "" then d else v) = v
  rw [if_neg h]

theorem handleSave_rowCount (rows : List Row) (font bg transp : String) :
    handleSave rows font bg transp "rowCount" = some (natStr rows.length) := by
  unfold handleSave
  rw [setRowSettings_notTour rows 0 _ "rowCount"
    (fun i s _ _ => Ne.symm (tourKey_ne_rowCount i s))]
  unfold setS
  rw [if_pos rfl]

theorem handleSave_rowKeys (rows : List Row) (font bg transp : String)
    (i : ℕ) (hi : i < rows.length) :
    handleSave rows font bg transp (tourKey i "_object")
        = some ((rows.get ⟨i, hi⟩).object) ∧
    handleSave rows font bg transp (tourKey i "_text")
        = some ((rows.get ⟨i, hi⟩).text) ∧
    handleSave rows font bg transp (tourKey i "_position")
        = some ((rows.get ⟨i, hi⟩).position) := by
  unfold handleSave
  have h := setRowSettings_get rows 0 i
    (setS "rowCount" (natStr rows.length)
      (setS "transparency" transp
        (setS "backgroundColor" bg
          (setS "selectedFont" font emptySettings)))) hi
  rw [Nat.zero_add] at h
  exact h

/-- Settings round-trip (claim C9): saving any row sequence through the flat
`rowCount` / `tour{i}_object` / `tour{i}_text` / `tour{i}_position` encoding
and reloading it yields an identical ordered sequence of TourStep records
(target id, text, anchor position).  The anchor of a reachable step is one of
the four non-empty side names, which the hypothesis captures: an empty
position string (not reachable from the UI) would be replaced by the
`"right"` default on load. -/
theorem settings_round_trip (rows : List Row) (font bg transp : String)
    (hpos : ∀ r ∈ rows, r.position ≠ "") :
    (loadRows (handleSave rows font bg transp)).map rowFields
      = rows.map rowFields := by
  have h1 : jsOr (handleSave rows font bg transp "rowCount") "0"
      = natStr rows.length := by
    rw [handleSave_rowCount]
    exact jsOr_some_of_ne _ _ (natStr_ne_empty _)
  unfold loadRows
  rw [h1, jsParseNat_natStr]
  apply List.ext_getElem?
  intro k
  by_cases hk : k < rows.length
  · rw [List.getElem?_map, List.getElem?_map, List.getElem?_map,
      List.getElem?_range hk, List.getElem?_eq_getElem hk,
      Option.map_some', Option.map_some', Option.map_some']
    obtain ⟨ho, ht, hp⟩ := handleSave_rowKeys rows font bg transp k hk
    rw [ho, ht, hp, jsOr_some_empty, jsOr_some_empty,
      jsOr_some_of_ne _ _ (hpos _ (List.get_mem rows k hk))]
    rfl
  · rw [List.getElem?_map, List.getElem?_map, List.getElem?_map,
      List.getElem?_eq_none (by simpa using hk),
      List.getElem?_eq_none (by omega)]
    rfl

/-- Witness for `settings_round_trip` on the spec's three-step sequence. -/
theorem settings_round_trip_witness :
    (∀ r ∈ threeRows, r.position ≠ "") ∧
    (loadRows (handleSave threeRows "Roboto" "#f9f9f9" "70")).map rowFields
      = threeRows.map rowFields :=
  ⟨by decide, settings_round_trip threeRows "Roboto" "#f9f9f9" "70" (by decide)⟩

/-- Implicit claim C10: the played tour contains exactly the indices
`i ∈ [0, rowCount)` whose `tour{i}_object` and `tour{i}_text` settings are
both present and non-empty, in ascending index order, while the
configuration dialog materialises all `rowCount` rows (so the played tour
can be shorter than `rowCount`). -/
theorem playback_drops_incomplete (m : Settings)
    (objMap : String → Option ObjDetails) :
    refreshTourItems m objMap
      = ((List.range (jsParseNat (jsOr (m "rowCount") "0"))).filter
          (fun i => truthyS (m (tourKey i "_object")) &&
            truthyS (m (tourKey i "_text")))).map (itemOfSettings m objMap) ∧
    (loadRows m).length = jsParseNat (jsOr (m "rowCount") "0") := by
  constructor
  · show buildTourItems m objMap (jsParseNat (jsOr (m "rowCount") "0")) = _
    generalize jsParseNat (jsOr (m "rowCount") "0") = n
    induction n with
    | zero => rfl
    | succ k ih =>
        rw [show buildTourItems m objMap (k + 1)
            = buildTourItems m objMap k ++
              (if truthyS (m (tourKey k "_object")) &&
                  truthyS (m (tourKey k "_text")) then
                [itemOfSettings m objMap k]
              else []) from rfl,
          ih, List.range_succ, List.filter_append, List.map_append]
        congr 1
        by_cases hc : (truthyS (m (tourKey k "_object")) &&
            truthyS (m (tourKey k "_text"))) = true
        · rw [if_pos hc]
          simp [List.filter_cons, hc]
        · rw [if_neg hc]
          simp [List.filter_cons, hc]
  · unfold loadRows
    rw [List.length_map, List.length_range]

end TableauTour
